import Mathlib

/-!
Verification development for the OpenGraph metadata acquisition-and-caching
engine of a Go RSS feed generator.  Go strings are modelled as lists of code
units (`GoStr`); Go byte indexing, `len`, slicing and `strings.Contains` become
the corresponding list operations.  Timestamps are modelled as natural numbers
counting seconds.  Network I/O, the SQL driver and `net/url` parsing are
external collaborators: they enter the model as explicit parameters (oracles),
while every algorithmic step of the repository itself is translated directly
from the source.
-/

/-- Go strings, modelled as lists of code units. -/
abbrev GoStr := List Char

/-- Conversion of a literal to the Go string model. -/
def goStr (s : String) : GoStr := s.toList

/-- Whitespace predicate modelling `unicode.IsSpace` on the Latin-1 range
(the range exercised by this program's data). -/
def goIsSpace (c : Char) : Bool :=
  c = ' ' || c = '\t' || c = '\n' || c = '\x0b' || c = '\x0c' || c = '\r' ||
  c = '\u0085' || c = ' '

/-- Model of Go `strings.TrimSpace`: drop whitespace from both ends. -/
def trimSpace (s : GoStr) : GoStr :=
  ((s.dropWhile goIsSpace).reverse.dropWhile goIsSpace).reverse

/-- Helper for `containsL`: does `sub` occur at the front of `s`? -/
def hasPrefixL : GoStr → GoStr → Bool
  | _, [] => true
  | [], _ :: _ => false
  | c :: s, d :: t => c = d && hasPrefixL s t

/-- Model of Go `strings.Contains s sub` (case-sensitive substring test). -/
def containsL : GoStr → GoStr → Bool
  | [], sub => hasPrefixL [] sub
  | c :: s, sub => hasPrefixL (c :: s) sub || containsL s sub

/-- The record type `OpenGraphData` of the repository (fields as in the Go
struct; `FetchedAt`/`ExpiresAt` are timestamps in seconds). -/
structure OpenGraphData where
  URL : GoStr
  Title : GoStr
  Description : GoStr
  Image : GoStr
  SiteName : GoStr
  FetchedAt : Nat
  ExpiresAt : Nat
deriving DecidableEq, Repr

/-- The Go zero value `&OpenGraphData{}`. -/
def emptyOpenGraphData : OpenGraphData := ⟨[], [], [], [], [], 0, 0⟩

/-- Constant `OpenGraphCacheHours = 24` from the repository's constants block. -/
def OpenGraphCacheHours : Nat := 24

/-- `isRedditURL` from `opengraph.go`: substring test for the platform's
domains. -/
def isRedditURL (url : GoStr) : Bool :=
  containsL url (goStr "reddit.com") || containsL url (goStr "redd.it")

/-- The static blocklist of `isBlockedURL`. -/
def blockedDomains : List GoStr :=
  [goStr "x.com", goStr "twitter.com", goStr "facebook.com",
   goStr "instagram.com", goStr "linkedin.com"]

/-- `isBlockedURL` from `opengraph.go`: substring test against the blocklist. -/
def isBlockedURL (url : GoStr) : Bool :=
  blockedDomains.any (fun domain => containsL url domain)

/-- Cache table model: the `opengraph_cache` table, one `OpenGraphData` row per
line, keyed by the `URL` field (the SQL primary key). -/
abbrev CacheStore := List OpenGraphData

/-- Well-formedness of the table: the primary key constraint, no two rows share
a URL. -/
def cacheWellFormed (store : CacheStore) : Prop :=
  store.Pairwise (fun a b => a.URL ≠ b.URL)

/-- `SaveCachedOpenGraph` from `database.go`: `INSERT OR REPLACE` on the primary
key deletes any row with the same URL and inserts the new row. -/
def saveCachedOpenGraph (store : CacheStore) (og : OpenGraphData) : CacheStore :=
  store.filter (fun r => decide (¬ r.URL = og.URL)) ++ [og]

/-- `GetCachedOpenGraph` from `database.go`: the first row with
`url = ? AND expires_at > now`, absent (`sql.ErrNoRows` mapped to `nil`)
otherwise. -/
def getCachedOpenGraph (store : CacheStore) (url : GoStr) (now : Nat) :
    Option OpenGraphData :=
  store.find? (fun r => decide (r.URL = url) && decide (now < r.ExpiresAt))

/-- Parsed HTML nodes in the pointer shape of `golang.org/x/net/html`: an
element carries its tag, attribute list, first child and next sibling; a text
node carries its data and next sibling; `stop` is the nil pointer.  Document
and comment nodes, which the walk treats like any non-`meta`/`title` element,
are represented by an element with a tag that is neither `meta` nor `title`. -/
inductive HNode where
  | stop : HNode
  | text : GoStr → HNode → HNode
  | elem : GoStr → List (GoStr × GoStr) → HNode → HNode → HNode
deriving DecidableEq, Repr

/-- The `.Data` field of a node, as read by the `<title>` branch of the walk:
the text of a text node, the tag name of an element. -/
def childData : HNode → GoStr
  | HNode.stop => []
  | HNode.text s _ => s
  | HNode.elem tag _ _ _ => tag

/-- The attribute scan at the top of `processMetaTag`: a loop over the
attributes keeps the last value seen for each of the keys `property`,
`content` and `name`. -/
def attrScan (attrs : List (GoStr × GoStr)) : GoStr × GoStr × GoStr :=
  attrs.foldl
    (fun acc kv =>
      if kv.1 = goStr "property" then (kv.2, acc.2.1, acc.2.2)
      else if kv.1 = goStr "content" then (acc.1, kv.2, acc.2.2)
      else if kv.1 = goStr "name" then (acc.1, acc.2.1, kv.2)
      else acc)
    ([], [], [])

/-- `processMetaTag` from `opengraph.go`: the `og:*` property switch assigns
unconditionally; the `name`-based fallbacks fire only while the corresponding
field is still empty (description fallback first, then image, then title, as
in the source). -/
def processMetaTag (attrs : List (GoStr × GoStr)) (og : OpenGraphData) :
    OpenGraphData :=
  let scan := attrScan attrs
  let property := scan.1
  let content := scan.2.1
  let nameAttr := scan.2.2
  let og :=
    if property = goStr "og:title" then { og with Title := content }
    else if property = goStr "og:description" then { og with Description := content }
    else if property = goStr "og:image" then { og with Image := content }
    else if property = goStr "og:site_name" then { og with SiteName := content }
    else og
  let og :=
    if og.Description = [] then
      if nameAttr = goStr "description" then { og with Description := content }
      else if nameAttr = goStr "twitter:description" then { og with Description := content }
      else og
    else og
  let og :=
    if og.Image = [] then
      if nameAttr = goStr "twitter:image" then { og with Image := content }
      else og
    else og
  if og.Title = [] then
    if nameAttr = goStr "twitter:title" then { og with Title := content }
    else og
  else og

/-- The recursive walk `extractMeta` of `parseOpenGraphTags`: process the node
(meta tags via `processMetaTag`; a `<title>` element fills an empty title from
its first child's data), then recurse into the child chain, then continue with
the sibling chain — exactly the pre-order of the Go recursion combined with the
caller's sibling loop. -/
def extractMeta (og : OpenGraphData) : HNode → OpenGraphData
  | HNode.stop => og
  | HNode.text _ sib => extractMeta og sib
  | HNode.elem tag attrs child sib =>
    let og1 :=
      if tag = goStr "meta" then processMetaTag attrs og
      else if tag = goStr "title" then
        (if og.Title = [] ∧ child ≠ HNode.stop then
          { og with Title := trimSpace (childData child) }
        else og)
      else og
    extractMeta (extractMeta og1 child) sib

/-- Text collection of `extractFirstParagraph`'s inner `extractText`: the data
of every text node in the chain, in document order. -/
def textChain : HNode → GoStr
  | HNode.stop => []
  | HNode.text s sib => s ++ textChain sib
  | HNode.elem _ _ child sib => textChain child ++ textChain sib

/-- The recursive search `findFirstP` of `extractFirstParagraph`: a `<p>`
element whose trimmed text is longer than 20 code units is returned; otherwise
the search continues into the children and then the siblings. -/
def findFirstP : HNode → GoStr
  | HNode.stop => []
  | HNode.text _ sib => findFirstP sib
  | HNode.elem tag _ child sib =>
    let hit :=
      if tag = goStr "p" then
        (let r := trimSpace (textChain child)
         if 20 < r.length then r else [])
      else []
    if hit ≠ [] then hit
    else
      (let rc := findFirstP child
       if rc ≠ [] then rc else findFirstP sib)

/-- `extractFirstParagraph` from `opengraph.go`, on the already-parsed tree. -/
def extractFirstParagraph (doc : HNode) : GoStr := findFirstP doc

/-- `applyFallbacks` from `opengraph.go`.  `hostFn` models `url.Parse`
followed by `.Host` (`Option.none` for a parse error, in which case the site
name is left unchanged). -/
def applyFallbacks (hostFn : GoStr → Option GoStr) (og : OpenGraphData)
    (doc : HNode) : OpenGraphData :=
  let og :=
    if og.Description = [] then
      { og with Description := extractFirstParagraph doc }
    else og
  if og.SiteName = [] ∧ og.URL ≠ [] then
    match hostFn og.URL with
    | some h => { og with SiteName := h }
    | none => og
  else og

/-- `parseOpenGraphTags` from `opengraph.go`: walk the tree from the zero
record, then apply the fallbacks. -/
def parseOpenGraphTags (hostFn : GoStr → Option GoStr) (doc : HNode) :
    OpenGraphData :=
  applyFallbacks hostFn (extractMeta emptyOpenGraphData doc) doc

/-- The 3-code-unit ellipsis marker appended by the truncation rules. -/
def ellipsisMarker : GoStr := goStr "..."

/-- `cleanupOpenGraphData` from `opengraph.go`: truncate long descriptions
(500/497) and titles (200/197), clear a non-empty image that is not a valid
URL (`validURL` models `isValidURL`, i.e. `net/url` parsing), then trim
whitespace on the string fields. -/
def cleanupOpenGraphData (validURL : GoStr → Bool) (og : OpenGraphData) :
    OpenGraphData :=
  let og :=
    if 500 < og.Description.length then
      { og with Description := og.Description.take 497 ++ ellipsisMarker }
    else og
  let og :=
    if 200 < og.Title.length then
      { og with Title := og.Title.take 197 ++ ellipsisMarker }
    else og
  let og :=
    if og.Image = [] then og
    else if validURL og.Image then og
    else { og with Image := [] }
  { og with Title := trimSpace og.Title, Description := trimSpace og.Description,
            SiteName := trimSpace og.SiteName }

/-- The successful tail of `FetchOpenGraphData` (lines 77–92): after the
network and body handling (external), parse the tree, stamp
`URL`/`FetchedAt`/`ExpiresAt` with `ExpiresAt = now + OpenGraphCacheHours`
hours, and clean up. -/
def fetchOpenGraphData (validURL : GoStr → Bool) (hostFn : GoStr → Option GoStr)
    (url : GoStr) (now : Nat) (doc : HNode) : OpenGraphData :=
  let og := parseOpenGraphTags hostFn doc
  let og := { og with URL := url, FetchedAt := now,
                      ExpiresAt := now + OpenGraphCacheHours * 3600 }
  cleanupOpenGraphData validURL og

/-- Observable effects of one `GetOpenGraphPreview` call, in order. -/
inductive OGAction where
  | cacheRead
  | fetchURL
  | cacheWrite
deriving DecidableEq, Repr

/-- `GetOpenGraphPreview` from `opengraph.go`.  The external collaborators are
oracles: `hasDB` is `ogf.db != nil`; `cacheResult` is what
`GetCachedOpenGraph` would return (`Except.error` a read failure, otherwise
the optional row); `fetchResult` is what `FetchOpenGraphData` would return;
`writeResult` is what `SaveCachedOpenGraph` would return — the source only
logs it, so it is ignored here too.  The result is the returned record plus
the trace of cache/network effects. -/
def getOpenGraphPreview (hasDB : Bool) (url : GoStr)
    (cacheResult : Except Unit (Option OpenGraphData))
    (fetchResult : Except Unit OpenGraphData)
    (_writeResult : Except Unit Unit) :
    Option OpenGraphData × List OGAction :=
  if isRedditURL url then (Option.none, [])
  else if isBlockedURL url then (Option.none, [])
  else
    let readActs : List OGAction := if hasDB then [OGAction.cacheRead] else []
    let cached : Option OpenGraphData :=
      if hasDB then
        match cacheResult with
        | Except.ok c => c
        | Except.error _ => Option.none
      else Option.none
    match cached with
    | some c => (Option.some c, readActs)
    | none =>
      match fetchResult with
      | Except.error _ => (Option.none, readActs ++ [OGAction.fetchURL])
      | Except.ok og =>
        if hasDB then (Option.some og, readActs ++ [OGAction.fetchURL, OGAction.cacheWrite])
        else (Option.some og, readActs ++ [OGAction.fetchURL])

/-- Assignment `data[url] = og` into the Go result map, modelled on an
association list: overwrite the entry with that key if present, append
otherwise. -/
def mapInsert (m : List (GoStr × OpenGraphData)) (k : GoStr)
    (v : OpenGraphData) : List (GoStr × OpenGraphData) :=
  if m.any (fun p => decide (p.1 = k)) then
    m.map (fun p => if p.1 = k then (k, v) else p)
  else m ++ [(k, v)]

/-- The per-URL loop body and result collection of `FetchConcurrentOpenGraph`:
empty URLs are skipped before any work; every other URL is resolved
(`resolve` abstracts `GetOpenGraphPreview`, and the second component records
the URLs actually resolved); a result enters the map only when the resolution
produced a record.  Concurrency only permutes the completion order, which the
map contents do not depend on, so the collection is modelled sequentially. -/
def collectResults (resolve : GoStr → Option OpenGraphData) :
    List GoStr → List (GoStr × OpenGraphData) → List GoStr →
    List (GoStr × OpenGraphData) × List GoStr
  | [], m, calls => (m, calls)
  | u :: us, m, calls =>
    if u = [] then collectResults resolve us m calls
    else
      match resolve u with
      | some og => collectResults resolve us (mapInsert m u og) (calls ++ [u])
      | none => collectResults resolve us m (calls ++ [u])

/-- `FetchConcurrentOpenGraph` from `opengraph.go`: `nil` (here `Option.none`)
for an empty input list, otherwise the collected map. -/
def fetchConcurrentOpenGraph (resolve : GoStr → Option OpenGraphData)
    (urls : List GoStr) : Option (List (GoStr × OpenGraphData)) :=
  if urls = [] then Option.none
  else Option.some (collectResults resolve urls [] []).1

/-- The URLs on which `FetchConcurrentOpenGraph` actually invokes
`GetOpenGraphPreview`. -/
def resolvedURLs (resolve : GoStr → Option OpenGraphData)
    (urls : List GoStr) : List GoStr :=
  (collectResults resolve urls [] []).2

/-- The semaphore capacity `maxConcurrent = 5` of `FetchConcurrentOpenGraph`. -/
def maxConcurrent : Nat := 5

/-- Abstract state of the fan-out: how many per-URL tasks still wait for a
semaphore slot, how many hold a slot (and hence may have a resolution in
flight), and how many have released it. -/
structure SemState where
  waiting : Nat
  holding : Nat
  released : Nat
deriving DecidableEq, Repr

/-- One scheduler step of the fan-out: a waiting task acquires a slot only
when fewer than `maxConcurrent` are held (`semaphore <- struct{}{}` blocks
otherwise); a holding task finishes its resolution and releases its slot. -/
inductive SemStep : SemState → SemState → Prop where
  | acquire (s : SemState) (hw : 0 < s.waiting) (hh : s.holding < maxConcurrent) :
      SemStep s ⟨s.waiting - 1, s.holding + 1, s.released⟩
  | release (s : SemState) (hh : 0 < s.holding) :
      SemStep s ⟨s.waiting, s.holding - 1, s.released + 1⟩

/-- Initial state for a batch of `n` spawned tasks. -/
def semInit (n : Nat) : SemState := ⟨n, 0, 0⟩

/-- States reachable by the fan-out over a batch of `n` tasks. -/
def SemReachable (n : Nat) (s : SemState) : Prop :=
  Relation.ReflTransGen SemStep (semInit n) s

/-- Host oracle that always fails to parse; used for closed examples where the
host fallback is irrelevant. -/
def noHost : GoStr → Option GoStr := fun _ => Option.none

/-- Helper: looking up the key just saved sees exactly the saved row, filtered
by its expiry. -/
theorem getCached_save (store : CacheStore) (og : OpenGraphData) (now : Nat) :
    getCachedOpenGraph (saveCachedOpenGraph store og) og.URL now =
      if now < og.ExpiresAt then Option.some og else Option.none := by
  induction store with
  | nil =>
    by_cases h : now < og.ExpiresAt <;>
      simp [getCachedOpenGraph, saveCachedOpenGraph, List.find?, h]
  | cons r s ih =>
    by_cases h : r.URL = og.URL
    · simpa [saveCachedOpenGraph, h] using ih
    · simpa [saveCachedOpenGraph, getCachedOpenGraph, List.find?, h] using ih

/-- Helper: a URL with no row in the store is never found. -/
theorem getCached_not_mem (store : CacheStore) (u : GoStr) (now : Nat)
    (h : ∀ r ∈ store, r.URL ≠ u) :
    getCachedOpenGraph store u now = Option.none := by
  unfold getCachedOpenGraph
  rw [List.find?_eq_none]
  intro r hr
  simp [h r hr]

/-- Claim C1: after `SaveCachedOpenGraph(record)`, `GetCachedOpenGraph` on the
record's URL returns absent when `expiresAt <= now`, returns the record with
every field equal to the values written when `now < expiresAt`, and returns
absent for a URL with no row. -/
theorem cache_roundtrip_expiry (store : CacheStore) (og : OpenGraphData)
    (now : Nat) :
    (og.ExpiresAt ≤ now →
      getCachedOpenGraph (saveCachedOpenGraph store og) og.URL now = Option.none)
    ∧ (now < og.ExpiresAt →
      getCachedOpenGraph (saveCachedOpenGraph store og) og.URL now =
        Option.some og)
    ∧ (∀ u, (∀ r ∈ store, r.URL ≠ u) →
      getCachedOpenGraph store u now = Option.none) := by
  refine ⟨fun h => ?_, fun h => ?_, fun u h => getCached_not_mem store u now h⟩
  · rw [getCached_save]
    simp [Nat.not_lt.mpr h]
  · rw [getCached_save]
    simp [h]

/-- Witness for C1 at a concrete store and record. -/
theorem cache_roundtrip_expiry_witness :
    getCachedOpenGraph
        (saveCachedOpenGraph [] ⟨goStr "u", [], [], [], [], 1, 5⟩)
        (goStr "u") 7 = Option.none
    ∧ getCachedOpenGraph
        (saveCachedOpenGraph [] ⟨goStr "u", [], [], [], [], 1, 5⟩)
        (goStr "u") 3 =
        Option.some ⟨goStr "u", [], [], [], [], 1, 5⟩ :=
  ⟨((cache_roundtrip_expiry [] ⟨goStr "u", [], [], [], [], 1, 5⟩ 7).1
      (by decide)).trans rfl,
   ((cache_roundtrip_expiry [] ⟨goStr "u", [], [], [], [], 1, 5⟩ 3).2.1
      (by decide)).trans rfl⟩

/-- Helper: saving preserves the primary-key uniqueness of the table. -/
theorem cacheWellFormed_save (store : CacheStore) (og : OpenGraphData)
    (h : cacheWellFormed store) :
    cacheWellFormed (saveCachedOpenGraph store og) := by
  unfold cacheWellFormed saveCachedOpenGraph
  rw [List.pairwise_append]
  refine ⟨List.Pairwise.filter _ h, by simp, ?_⟩
  intro a ha b hb
  rcases List.mem_filter.mp ha with ⟨-, hne⟩
  simp only [List.mem_singleton] at hb
  subst hb
  simpa using hne

/-- Claim C8: saving two records with the same URL leaves exactly the second
record as the only row for that URL, and saving never creates a second row for
any URL. -/
theorem cache_upsert_wholesale (store : CacheStore) (r1 r2 : OpenGraphData)
    (_hurl : r1.URL = r2.URL) (hwf : cacheWellFormed store) :
    ((saveCachedOpenGraph (saveCachedOpenGraph store r1) r2).filter
        (fun r => decide (r.URL = r2.URL)) = [r2])
    ∧ cacheWellFormed (saveCachedOpenGraph (saveCachedOpenGraph store r1) r2) := by
  constructor
  · unfold saveCachedOpenGraph
    rw [List.filter_append, List.filter_filter]
    have hnil :
        ((saveCachedOpenGraph store r1).filter
          (fun a => decide (a.URL = r2.URL) && decide (¬ a.URL = r2.URL))) = [] := by
      rw [List.filter_eq_nil_iff]
      intro a _
      by_cases h : a.URL = r2.URL <;> simp [h]
    unfold saveCachedOpenGraph at hnil
    rw [hnil]
    simp
  · exact cacheWellFormed_save _ _ (cacheWellFormed_save _ _ hwf)

/-- Witness for C8 at concrete records sharing a URL. -/
theorem cache_upsert_wholesale_witness :
    (saveCachedOpenGraph
        (saveCachedOpenGraph [] ⟨goStr "u", goStr "t1", [], [], [], 1, 2⟩)
        ⟨goStr "u", goStr "t2", [], [], [], 3, 4⟩).filter
      (fun r => decide (r.URL = (goStr "u"))) =
      [⟨goStr "u", goStr "t2", [], [], [], 3, 4⟩] :=
  (cache_upsert_wholesale [] ⟨goStr "u", goStr "t1", [], [], [], 1, 2⟩
    ⟨goStr "u", goStr "t2", [], [], [], 3, 4⟩ rfl (by simp [cacheWellFormed])).1

/-- Claim C3: a URL is classified ineligible exactly when it contains the
platform domain, the short-link domain, or a blocklisted domain as a
case-sensitive substring (every other URL is eligible), and an ineligible URL
makes `GetOpenGraphPreview` return absent immediately with no cache read, no
fetch and no cache write. -/
theorem classifier_ineligible_spec (url : GoStr) :
    ((isRedditURL url || isBlockedURL url) = true ↔
      (containsL url (goStr "reddit.com") = true ∨
       containsL url (goStr "redd.it") = true ∨
       containsL url (goStr "x.com") = true ∨
       containsL url (goStr "twitter.com") = true ∨
       containsL url (goStr "facebook.com") = true ∨
       containsL url (goStr "instagram.com") = true ∨
       containsL url (goStr "linkedin.com") = true))
    ∧ ((isRedditURL url || isBlockedURL url) = true →
        ∀ hasDB cacheResult fetchResult writeResult,
          getOpenGraphPreview hasDB url cacheResult fetchResult writeResult =
            (Option.none, [])) := by
  constructor
  · simp [isRedditURL, isBlockedURL, blockedDomains, or_assoc]
  · intro h hasDB cacheResult fetchResult writeResult
    rcases Bool.or_eq_true_iff.mp h with h1 | h1 <;>
      simp [getOpenGraphPreview, h1]

/-- Witness for C3 at concrete eligible and ineligible URLs. -/
theorem classifier_ineligible_spec_witness :
    getOpenGraphPreview true (goStr "https://old.reddit.com/r/go")
        (Except.ok Option.none) (Except.ok emptyOpenGraphData) (Except.ok ()) =
      (Option.none, [])
    ∧ (isRedditURL (goStr "https://example.org/a") ||
        isBlockedURL (goStr "https://example.org/a")) = false :=
  ⟨(classifier_ineligible_spec (goStr "https://old.reddit.com/r/go")).2
      (by decide) true (Except.ok Option.none) (Except.ok emptyOpenGraphData)
      (Except.ok ()),
   by decide⟩

/-- Claim C4: at the coordinator, a cache read error behaves exactly like a
cache miss (a fresh fetch is attempted); a cache write error after a
successful fetch is swallowed and the fetched record is still returned; a
failed fetch yields absent and performs no cache write. -/
theorem coordinator_error_absorption (url : GoStr)
    (hr : isRedditURL url = false) (hb : isBlockedURL url = false) :
    (∀ fetchResult writeResult,
        OGAction.fetchURL ∈
          (getOpenGraphPreview true url (Except.error ()) fetchResult
            writeResult).2
        ∧ getOpenGraphPreview true url (Except.error ()) fetchResult
            writeResult =
          getOpenGraphPreview true url (Except.ok Option.none) fetchResult
            writeResult)
    ∧ (∀ og writeResult,
        (getOpenGraphPreview true url (Except.ok Option.none) (Except.ok og)
          writeResult).1 = Option.some og)
    ∧ (∀ writeResult,
        (getOpenGraphPreview true url (Except.ok Option.none)
          (Except.error ()) writeResult).1 = Option.none
        ∧ OGAction.cacheWrite ∉
          (getOpenGraphPreview true url (Except.ok Option.none)
            (Except.error ()) writeResult).2) := by
  refine ⟨fun fetchResult writeResult => ?_,
          fun og writeResult => ?_, fun writeResult => ?_⟩
  · cases fetchResult <;> simp [getOpenGraphPreview, hr, hb]
  · simp [getOpenGraphPreview, hr, hb]
  · simp [getOpenGraphPreview, hr, hb]

/-- Witness for C4 at a concrete eligible URL. -/
theorem coordinator_error_absorption_witness :
    (getOpenGraphPreview true (goStr "https://example.com/x")
        (Except.ok Option.none) (Except.ok emptyOpenGraphData)
        (Except.error ())).1 = Option.some emptyOpenGraphData
    ∧ OGAction.fetchURL ∈
        (getOpenGraphPreview true (goStr "https://example.com/x")
          (Except.error ()) (Except.error ()) (Except.ok ())).2 :=
  ⟨(coordinator_error_absorption (goStr "https://example.com/x")
      (by decide) (by decide)).2.1 emptyOpenGraphData (Except.error ()),
   ((coordinator_error_absorption (goStr "https://example.com/x")
      (by decide) (by decide)).1 (Except.error ()) (Except.ok ())).1⟩

/-- Helper: the cleanup pass never changes the timestamps. -/
theorem cleanup_timestamps (validURL : GoStr → Bool) (og : OpenGraphData) :
    (cleanupOpenGraphData validURL og).FetchedAt = og.FetchedAt
    ∧ (cleanupOpenGraphData validURL og).ExpiresAt = og.ExpiresAt := by
  simp only [cleanupOpenGraphData]
  constructor <;> (split_ifs <;> rfl)

/-- Claim C6: every record produced by a successful fetch is stamped with
`expiresAt = fetchedAt + OpenGraphCacheHours` hours, hence satisfies
`expiresAt > fetchedAt`. -/
theorem ttl_stamping_invariant (validURL : GoStr → Bool)
    (hostFn : GoStr → Option GoStr) (url : GoStr) (now : Nat) (doc : HNode) :
    (fetchOpenGraphData validURL hostFn url now doc).ExpiresAt =
      (fetchOpenGraphData validURL hostFn url now doc).FetchedAt +
        OpenGraphCacheHours * 3600
    ∧ (fetchOpenGraphData validURL hostFn url now doc).FetchedAt <
      (fetchOpenGraphData validURL hostFn url now doc).ExpiresAt := by
  unfold fetchOpenGraphData
  rw [(cleanup_timestamps validURL _).1, (cleanup_timestamps validURL _).2]
  exact ⟨rfl, by simp [OpenGraphCacheHours]⟩

/-- Helper: trimming never lengthens a string. -/
theorem trimSpace_length_le (s : GoStr) : (trimSpace s).length ≤ s.length := by
  unfold trimSpace
  rw [List.length_reverse]
  refine le_trans (List.Sublist.length_le (List.dropWhile_sublist _)) ?_
  rw [List.length_reverse]
  exact List.Sublist.length_le (List.dropWhile_sublist _)

/-- Helper: the ellipsis marker is 3 code units long. -/
theorem ellipsisMarker_length : ellipsisMarker.length = 3 := rfl

/-- Helper: the title produced by the cleanup pass. -/
theorem cleanup_Title (validURL : GoStr → Bool) (og : OpenGraphData) :
    (cleanupOpenGraphData validURL og).Title =
      trimSpace (if 200 < og.Title.length then og.Title.take 197 ++ ellipsisMarker
                 else og.Title) := by
  simp only [cleanupOpenGraphData]
  split_ifs <;> simp_all

/-- Helper: the description produced by the cleanup pass. -/
theorem cleanup_Description (validURL : GoStr → Bool) (og : OpenGraphData) :
    (cleanupOpenGraphData validURL og).Description =
      trimSpace (if 500 < og.Description.length then
                   og.Description.take 497 ++ ellipsisMarker
                 else og.Description) := by
  simp only [cleanupOpenGraphData]
  split_ifs <;> simp_all

/-- Claim C5: a title longer than 200 code units is cut to its first 197 plus
the 3-unit ellipsis marker and a description longer than 500 is cut to its
first 497 plus the marker; shorter titles and descriptions are not truncated
(only the always-applied whitespace trim touches them), and the cleaned title
and description never exceed 200 and 500 units. -/
theorem cleanup_truncation_rule (validURL : GoStr → Bool) (og : OpenGraphData) :
    ((cleanupOpenGraphData validURL og).Title.length ≤ 200)
    ∧ ((cleanupOpenGraphData validURL og).Description.length ≤ 500)
    ∧ (200 < og.Title.length →
        (cleanupOpenGraphData validURL og).Title =
          trimSpace (og.Title.take 197 ++ ellipsisMarker))
    ∧ (og.Title.length ≤ 200 →
        (cleanupOpenGraphData validURL og).Title = trimSpace og.Title)
    ∧ (500 < og.Description.length →
        (cleanupOpenGraphData validURL og).Description =
          trimSpace (og.Description.take 497 ++ ellipsisMarker))
    ∧ (og.Description.length ≤ 500 →
        (cleanupOpenGraphData validURL og).Description =
          trimSpace og.Description) := by
  have hT := cleanup_Title validURL og
  have hD := cleanup_Description validURL og
  refine ⟨?_, ?_, fun h => ?_, fun h => ?_, fun h => ?_, fun h => ?_⟩
  · rw [hT]
    split_ifs with h
    · refine le_trans (trimSpace_length_le _) ?_
      rw [List.length_append, ellipsisMarker_length, List.length_take]
      omega
    · exact le_trans (trimSpace_length_le _) (by omega)
  · rw [hD]
    split_ifs with h
    · refine le_trans (trimSpace_length_le _) ?_
      rw [List.length_append, ellipsisMarker_length, List.length_take]
      omega
    · exact le_trans (trimSpace_length_le _) (by omega)
  · rw [hT, if_pos h]
  · rw [hT, if_neg (by omega)]
  · rw [hD, if_pos h]
  · rw [hD, if_neg (by omega)]

/-- Witness for C5 on a 201-unit title and a short title. -/
theorem cleanup_truncation_rule_witness :
    (cleanupOpenGraphData (fun _ => true)
        ⟨[], List.replicate 201 'a', [], [], [], 0, 0⟩).Title =
      trimSpace ((List.replicate 201 'a').take 197 ++ ellipsisMarker)
    ∧ (cleanupOpenGraphData (fun _ => true)
        ⟨[], goStr "short", [], [], [], 0, 0⟩).Title = trimSpace (goStr "short") :=
  ⟨(cleanup_truncation_rule (fun _ => true)
      ⟨[], List.replicate 201 'a', [], [], [], 0, 0⟩).2.2.1
      (by show 200 < (List.replicate 201 'a').length
          rw [List.length_replicate]; omega),
   (cleanup_truncation_rule (fun _ => true)
      ⟨[], goStr "short", [], [], [], 0, 0⟩).2.2.2.1 (by decide)⟩

/-- Claim C9: in every state the fan-out can reach, at most `maxConcurrent = 5`
per-URL resolutions hold a semaphore slot (are in flight); the rest wait. -/
theorem bounded_concurrency_sem (n : Nat) (s : SemState)
    (h : SemReachable n s) : s.holding ≤ maxConcurrent := by
  unfold SemReachable at h
  induction h with
  | refl => simp [semInit]
  | tail _ hstep ih =>
    cases hstep with
    | acquire hw hh => simpa using hh
    | release hh => simp; omega

/-- Witness for C9 at a concrete reachable state. -/
theorem bounded_concurrency_sem_witness : (semInit 8).holding ≤ maxConcurrent :=
  bounded_concurrency_sem 8 (semInit 8) Relation.ReflTransGen.refl

/-- Helper: where the entries of the collected result map can come from. -/
theorem mapInsert_mem {m : List (GoStr × OpenGraphData)} {k u : GoStr}
    {v w : OpenGraphData} (h : (u, w) ∈ mapInsert m k v) :
    (u, w) ∈ m ∨ (u = k ∧ w = v) := by
  unfold mapInsert at h
  split at h
  · rcases List.mem_map.mp h with ⟨p, hp, hpe⟩
    by_cases hk : p.1 = k
    · rw [if_pos hk] at hpe
      injection hpe with h1 h2
      exact Or.inr ⟨h1.symm, h2.symm⟩
    · rw [if_neg hk] at hpe
      left
      rw [← hpe]
      exact hp
  · rcases List.mem_append.mp h with h1 | h1
    · exact Or.inl h1
    · right
      rcases List.mem_singleton.mp h1 with h2
      exact ⟨congrArg Prod.fst h2, congrArg Prod.snd h2⟩

/-- Helper: every entry of the collected map was in the accumulator or comes
from a non-empty URL of the list whose resolution produced that record. -/
theorem collectResults_mem (resolve : GoStr → Option OpenGraphData) :
    ∀ (us : List GoStr) (m : List (GoStr × OpenGraphData)) (calls : List GoStr)
      (u : GoStr) (v : OpenGraphData),
      (u, v) ∈ (collectResults resolve us m calls).1 →
      (u, v) ∈ m ∨ (u ∈ us ∧ u ≠ [] ∧ resolve u = Option.some v) := by
  intro us
  induction us with
  | nil =>
    intro m calls u v h
    exact Or.inl (by simpa [collectResults] using h)
  | cons u0 us ih =>
    intro m calls u v h
    by_cases h0 : u0 = []
    · rw [collectResults, if_pos h0] at h
      rcases ih _ _ _ _ h with h1 | h1
      · exact Or.inl h1
      · exact Or.inr ⟨List.mem_cons_of_mem _ h1.1, h1.2⟩
    · rw [collectResults, if_neg h0] at h
      rcases hres : resolve u0 with _ | og
      · rw [hres] at h
        rcases ih _ _ _ _ h with h1 | h1
        · exact Or.inl h1
        · exact Or.inr ⟨List.mem_cons_of_mem _ h1.1, h1.2⟩
      · rw [hres] at h
        rcases ih _ _ _ _ h with h1 | h1
        · rcases mapInsert_mem h1 with h2 | h2
          · exact Or.inl h2
          · refine Or.inr ⟨?_, ?_, ?_⟩
            · rw [h2.1]; exact List.mem_cons_self u0 us
            · rw [h2.1]; exact h0
            · rw [h2.1, h2.2]; exact hres
        · exact Or.inr ⟨List.mem_cons_of_mem _ h1.1, h1.2⟩

/-- Claim C7: every entry of the mapping returned by
`FetchConcurrentOpenGraph` belongs to a URL of the input whose resolution
produced exactly that record; ineligible or failed URLs (resolution absent)
have no entry. -/
theorem batch_result_omission (resolve : GoStr → Option OpenGraphData)
    (urls : List GoStr) (m : List (GoStr × OpenGraphData)) (u : GoStr)
    (v : OpenGraphData)
    (hm : fetchConcurrentOpenGraph resolve urls = Option.some m)
    (huv : (u, v) ∈ m) :
    u ∈ urls ∧ u ≠ [] ∧ resolve u = Option.some v := by
  unfold fetchConcurrentOpenGraph at hm
  split at hm
  · exact absurd hm (by simp)
  · rcases Option.some.inj hm with h
    rw [← h] at huv
    rcases collectResults_mem resolve urls [] [] u v huv with h1 | h1
    · exact absurd h1 (List.not_mem_nil _)
    · exact h1

/-- A concrete resolver for the batch witnesses: only the URL `a` resolves. -/
def resolveOneExample : GoStr → Option OpenGraphData :=
  fun u => if u = goStr "a" then Option.some emptyOpenGraphData else Option.none

/-- Witness for C7 at a concrete URL list and resolver. -/
theorem batch_result_omission_witness :
    goStr "a" ∈ [goStr "a", goStr "b"] ∧ goStr "a" ≠ []
    ∧ resolveOneExample (goStr "a") = Option.some emptyOpenGraphData :=
  batch_result_omission resolveOneExample [goStr "a", goStr "b"]
    [(goStr "a", emptyOpenGraphData)] (goStr "a") emptyOpenGraphData
    (by decide) (by decide)

/-- Helper: the collection loop never resolves an empty URL. -/
theorem collectResults_calls (resolve : GoStr → Option OpenGraphData) :
    ∀ (us : List GoStr) (m : List (GoStr × OpenGraphData)) (calls : List GoStr),
      ([] : GoStr) ∉ calls →
      ([] : GoStr) ∉ (collectResults resolve us m calls).2 := by
  intro us
  induction us with
  | nil =>
    intro m calls h
    simpa [collectResults] using h
  | cons u0 us ih =>
    intro m calls h
    by_cases h0 : u0 = []
    · rw [collectResults, if_pos h0]
      exact ih _ _ h
    · rw [collectResults, if_neg h0]
      have hcalls : ([] : GoStr) ∉ calls ++ [u0] := by
        intro hc
        rcases List.mem_append.mp hc with hc1 | hc1
        · exact h hc1
        · exact h0 (List.mem_singleton.mp hc1).symm
      rcases hres : resolve u0 with _ | og
      · exact ih _ _ hcalls
      · exact ih _ _ hcalls

/-- Claim C10: an empty URL list yields the absent (`nil`) mapping while any
non-empty list yields a present (possibly empty) mapping, and empty-string
URLs are never resolved (never classified or fetched) and never appear in the
output mapping. -/
theorem batch_empty_input :
    (∀ resolve, fetchConcurrentOpenGraph resolve [] = Option.none)
    ∧ (∀ resolve urls, urls ≠ [] →
        ∃ m, fetchConcurrentOpenGraph resolve urls = Option.some m)
    ∧ (∀ resolve urls, ([] : GoStr) ∉ resolvedURLs resolve urls)
    ∧ (∀ resolve urls m v,
        fetchConcurrentOpenGraph resolve urls = Option.some m →
        ([], v) ∉ m) := by
  refine ⟨fun resolve => by simp [fetchConcurrentOpenGraph],
          fun resolve urls h => ?_, fun resolve urls => ?_,
          fun resolve urls m v hm hmem => ?_⟩
  · exact ⟨_, by rw [fetchConcurrentOpenGraph, if_neg h]⟩
  · exact collectResults_calls resolve urls [] [] (List.not_mem_nil _)
  · rcases batch_result_omission resolve urls m [] v hm hmem with ⟨-, h2, -⟩
    exact h2 rfl

/-- Witness for C10 at concrete inputs. -/
theorem batch_empty_input_witness :
    fetchConcurrentOpenGraph resolveOneExample [] = Option.none
    ∧ (∃ m, fetchConcurrentOpenGraph resolveOneExample [[], goStr "a"] =
        Option.some m)
    ∧ ([] : GoStr) ∉ resolvedURLs resolveOneExample [[], goStr "a"] :=
  ⟨batch_empty_input.1 resolveOneExample,
   batch_empty_input.2.1 resolveOneExample [[], goStr "a"] (by decide),
   batch_empty_input.2.2.1 resolveOneExample [[], goStr "a"]⟩

/-- A document whose head carries two meta tags with the same `property` value
`prop`, with contents `a` then `b` in document order. -/
def twinMetaDoc (prop a b : GoStr) : HNode :=
  HNode.elem (goStr "html") []
    (HNode.elem (goStr "head") []
      (HNode.elem (goStr "meta")
        [(goStr "property", prop), (goStr "content", a)]
        HNode.stop
        (HNode.elem (goStr "meta")
          [(goStr "property", prop), (goStr "content", b)]
          HNode.stop HNode.stop))
      HNode.stop)
    HNode.stop

/-- Counterexample to C2 as stated: with two `og:title` meta tags in document
order, the extractor keeps the second occurrence's content, not the first. -/
theorem extraction_first_wins_cex :
    (parseOpenGraphTags noHost
        (twinMetaDoc (goStr "og:title") (goStr "First title")
          (goStr "Second title"))).Title =
      goStr "Second title"
    ∧ (parseOpenGraphTags noHost
        (twinMetaDoc (goStr "og:title") (goStr "First title")
          (goStr "Second title"))).Title ≠
      goStr "First title" := by
  decide

/-- Helper: the attribute scan of a meta tag carrying exactly a `property` and
a `content` attribute. -/
theorem attrScan_prop_content (prop c : GoStr) :
    attrScan [(goStr "property", prop), (goStr "content", c)] =
      (prop, c, []) := rfl

/-- Helper: a meta tag carrying only `property="og:title"` and a content value
assigns the title unconditionally. -/
theorem processMetaTag_ogtitle (og : OpenGraphData) (c : GoStr) :
    processMetaTag [(goStr "property", goStr "og:title"), (goStr "content", c)]
        og = { og with Title := c } := by
  by_cases hd : og.Description = [] <;> by_cases ht : c = [] <;>
    by_cases hi : og.Image = [] <;>
    simp +decide [processMetaTag, attrScan_prop_content, hd, ht, hi]

/-- Helper: a meta tag carrying only `property="og:description"` and a content
value assigns the description unconditionally. -/
theorem processMetaTag_ogdesc (og : OpenGraphData) (c : GoStr) :
    processMetaTag
        [(goStr "property", goStr "og:description"), (goStr "content", c)]
        og = { og with Description := c } := by
  by_cases hc : c = [] <;> by_cases hi : og.Image = [] <;>
    by_cases ht : og.Title = [] <;>
    simp +decide [processMetaTag, attrScan_prop_content, hc, hi, ht]

/-- Helper: a meta tag carrying only `property="og:image"` and a content value
assigns the image unconditionally. -/
theorem processMetaTag_ogimage (og : OpenGraphData) (c : GoStr) :
    processMetaTag
        [(goStr "property", goStr "og:image"), (goStr "content", c)]
        og = { og with Image := c } := by
  by_cases hd : og.Description = [] <;> by_cases hc : c = [] <;>
    by_cases ht : og.Title = [] <;>
    simp +decide [processMetaTag, attrScan_prop_content, hd, hc, ht]

/-- Helper: a meta tag carrying only `property="og:site_name"` and a content
value assigns the site name unconditionally. -/
theorem processMetaTag_ogsite (og : OpenGraphData) (c : GoStr) :
    processMetaTag
        [(goStr "property", goStr "og:site_name"), (goStr "content", c)]
        og = { og with SiteName := c } := by
  by_cases hd : og.Description = [] <;> by_cases hi : og.Image = [] <;>
    by_cases ht : og.Title = [] <;>
    simp +decide [processMetaTag, attrScan_prop_content, hd, hi, ht]

/-- Helper: an already-set field of the record can only be changed by the
matching `og:*` property of the meta tag being processed. -/
theorem processMetaTag_override (attrs : List (GoStr × GoStr))
    (og : OpenGraphData) :
    (og.Title ≠ [] → (processMetaTag attrs og).Title ≠ og.Title →
      (attrScan attrs).1 = goStr "og:title")
    ∧ (og.Description ≠ [] →
        (processMetaTag attrs og).Description ≠ og.Description →
        (attrScan attrs).1 = goStr "og:description")
    ∧ (og.Image ≠ [] → (processMetaTag attrs og).Image ≠ og.Image →
        (attrScan attrs).1 = goStr "og:image")
    ∧ (og.SiteName ≠ [] → (processMetaTag attrs og).SiteName ≠ og.SiteName →
        (attrScan attrs).1 = goStr "og:site_name") := by
  rcases hscan : attrScan attrs with ⟨p, c, n⟩
  refine ⟨fun hset hchg => ?_, fun hset hchg => ?_,
          fun hset hchg => ?_, fun hset hchg => ?_⟩ <;>
    (by_contra hne
     apply hchg
     simp only [processMetaTag, hscan]
     simp [apply_ite OpenGraphData.Title, apply_ite OpenGraphData.Description,
       apply_ite OpenGraphData.Image, apply_ite OpenGraphData.SiteName]
     try split_ifs
     all_goals simp_all)

/-- Helper: whenever the scanned `property` is an `og:*` name, `processMetaTag`
stores the scanned content in the matching field, whatever the field held
before (the assignment is unconditional). -/
theorem processMetaTag_og_assign (attrs : List (GoStr × GoStr))
    (og : OpenGraphData) :
    ((attrScan attrs).1 = goStr "og:title" →
      (processMetaTag attrs og).Title = (attrScan attrs).2.1)
    ∧ ((attrScan attrs).1 = goStr "og:description" →
      (processMetaTag attrs og).Description = (attrScan attrs).2.1)
    ∧ ((attrScan attrs).1 = goStr "og:image" →
      (processMetaTag attrs og).Image = (attrScan attrs).2.1)
    ∧ ((attrScan attrs).1 = goStr "og:site_name" →
      (processMetaTag attrs og).SiteName = (attrScan attrs).2.1) := by
  rcases hscan : attrScan attrs with ⟨p, c, n⟩
  refine ⟨fun hp => ?_, fun hp => ?_, fun hp => ?_, fun hp => ?_⟩ <;>
    (simp only [processMetaTag, hscan]
     simp [apply_ite OpenGraphData.Title, apply_ite OpenGraphData.Description,
       apply_ite OpenGraphData.Image, apply_ite OpenGraphData.SiteName]
     try split_ifs
     all_goals try simp_all
     all_goals exact absurd hp (by decide))

/-- Helper: a `<title>` element whose title branch faces an already-set title
contributes nothing itself — the walk just continues into its children and
siblings. -/
theorem extractMeta_title_no_override (og : OpenGraphData)
    (attrs : List (GoStr × GoStr)) (child sib : HNode)
    (hset : og.Title ≠ []) :
    extractMeta og (HNode.elem (goStr "title") attrs child sib) =
      extractMeta (extractMeta og child) sib := by
  simp +decide [extractMeta, hset]

set_option maxHeartbeats 1000000 in
/-- Claim C2 (amended): the `name`-based fallbacks and the `<title>` element
never override an already-set field — an already-set field can only change
through its own `og:*` property, whose assignment is unconditional, so of two
occurrences of the same `og:*` meta tag (any of the four) the second one's
content in document order is kept. -/
theorem extraction_precedence_amended :
    (∀ og attrs child sib, og.Title ≠ [] →
        extractMeta og (HNode.elem (goStr "title") attrs child sib) =
          extractMeta (extractMeta og child) sib)
    ∧ (∀ attrs og, og.Title ≠ [] →
        (processMetaTag attrs og).Title ≠ og.Title →
        (attrScan attrs).1 = goStr "og:title")
    ∧ (∀ attrs og, og.Description ≠ [] →
        (processMetaTag attrs og).Description ≠ og.Description →
        (attrScan attrs).1 = goStr "og:description")
    ∧ (∀ attrs og, og.Image ≠ [] →
        (processMetaTag attrs og).Image ≠ og.Image →
        (attrScan attrs).1 = goStr "og:image")
    ∧ (∀ attrs og, og.SiteName ≠ [] →
        (processMetaTag attrs og).SiteName ≠ og.SiteName →
        (attrScan attrs).1 = goStr "og:site_name")
    ∧ (∀ attrs og, (attrScan attrs).1 = goStr "og:title" →
        (processMetaTag attrs og).Title = (attrScan attrs).2.1)
    ∧ (∀ attrs og, (attrScan attrs).1 = goStr "og:description" →
        (processMetaTag attrs og).Description = (attrScan attrs).2.1)
    ∧ (∀ attrs og, (attrScan attrs).1 = goStr "og:image" →
        (processMetaTag attrs og).Image = (attrScan attrs).2.1)
    ∧ (∀ attrs og, (attrScan attrs).1 = goStr "og:site_name" →
        (processMetaTag attrs og).SiteName = (attrScan attrs).2.1)
    ∧ (∀ a b, (parseOpenGraphTags noHost
        (twinMetaDoc (goStr "og:title") a b)).Title = b)
    ∧ (∀ a b, (parseOpenGraphTags noHost
        (twinMetaDoc (goStr "og:description") a b)).Description = b)
    ∧ (∀ a b, (parseOpenGraphTags noHost
        (twinMetaDoc (goStr "og:image") a b)).Image = b)
    ∧ (∀ a b, (parseOpenGraphTags noHost
        (twinMetaDoc (goStr "og:site_name") a b)).SiteName = b) := by
  refine ⟨fun og attrs child sib hset =>
            extractMeta_title_no_override og attrs child sib hset,
          fun attrs og => (processMetaTag_override attrs og).1,
          fun attrs og => (processMetaTag_override attrs og).2.1,
          fun attrs og => (processMetaTag_override attrs og).2.2.1,
          fun attrs og => (processMetaTag_override attrs og).2.2.2,
          fun attrs og => (processMetaTag_og_assign attrs og).1,
          fun attrs og => (processMetaTag_og_assign attrs og).2.1,
          fun attrs og => (processMetaTag_og_assign attrs og).2.2.1,
          fun attrs og => (processMetaTag_og_assign attrs og).2.2.2,
          fun a b => ?_, fun a b => ?_, fun a b => ?_, fun a b => ?_⟩
  · simp +decide [parseOpenGraphTags, twinMetaDoc, extractMeta,
      processMetaTag_ogtitle, applyFallbacks, extractFirstParagraph,
      findFirstP, textChain, emptyOpenGraphData, noHost]
  · by_cases hb : b = [] <;>
      simp +decide [parseOpenGraphTags, twinMetaDoc, extractMeta,
        processMetaTag_ogdesc, applyFallbacks, extractFirstParagraph,
        findFirstP, textChain, emptyOpenGraphData, noHost, hb]
  · simp +decide [parseOpenGraphTags, twinMetaDoc, extractMeta,
      processMetaTag_ogimage, applyFallbacks, extractFirstParagraph,
      findFirstP, textChain, emptyOpenGraphData, noHost]
  · simp +decide [parseOpenGraphTags, twinMetaDoc, extractMeta,
      processMetaTag_ogsite, applyFallbacks, extractFirstParagraph,
      findFirstP, textChain, emptyOpenGraphData, noHost]

/-- Witness for the amended C2: a `<title>` element leaves a set title alone,
and an `og:title` meta tag changing a set title is detected as such. -/
theorem extraction_precedence_amended_witness :
    extractMeta ⟨[], goStr "X", [], [], [], 0, 0⟩
        (HNode.elem (goStr "title") []
          (HNode.text (goStr "Y") HNode.stop) HNode.stop) =
      extractMeta
        (extractMeta ⟨[], goStr "X", [], [], [], 0, 0⟩
          (HNode.text (goStr "Y") HNode.stop)) HNode.stop
    ∧ (attrScan [(goStr "property", goStr "og:title"),
                 (goStr "content", goStr "Y")]).1 = goStr "og:title" :=
  ⟨extraction_precedence_amended.1 ⟨[], goStr "X", [], [], [], 0, 0⟩ []
      (HNode.text (goStr "Y") HNode.stop) HNode.stop (by decide),
   extraction_precedence_amended.2.1
      [(goStr "property", goStr "og:title"), (goStr "content", goStr "Y")]
      ⟨[], goStr "X", [], [], [], 0, 0⟩ (by decide) (by decide)⟩
